import Mathlib

/-!
Verification of the in-memory game record store of `videogames-api`
(`src/index.js`).  The store is a mutable list `games` together with a
counter `currentId` initialised to 1.  The five HTTP handlers are embedded
as pure functions over an explicit `Store` state:

* `POST /games`       → `postGames`
* `GET /games`        → `getGames`
* `GET /games/:id`    → `getGameById`
* `PUT /games/:id`    → `putGame`
* `DELETE /games/:id` → `deleteGame`

JavaScript truthiness of the optional body fields is modelled by
`truthyStr` / `truthyInt` (a missing field is `none`, `""` and `0` are
falsy), and `parseInt(req.params.id)` by `parseIntJS`, with `none`
standing for `NaN`.  Sequences of mutating requests are replayed by
`runOps`, which also records the ids handed out by successful creates and
the number of successful deletes, so that lifetime invariants can be
stated.
-/

/-- Truthiness of an optional string under JavaScript coercion:
`undefined` and the empty string are falsy. -/
def truthyStr : Option String → Bool
  | none => false
  | some s => !s.isEmpty

/-- Truthiness of an optional integer under JavaScript coercion:
`undefined` and `0` are falsy. -/
def truthyInt : Option Int → Bool
  | none => false
  | some n => n != 0

/-- Hexadecimal digit test, for the `0x` radix auto-detection of
JavaScript `parseInt`. -/
def isHexDigitJS (c : Char) : Bool :=
  c.isDigit || ('a' ≤ c && c ≤ 'f') || ('A' ≤ c && c ≤ 'F')

/-- Numeric value of a (decimal or hexadecimal) digit character. -/
def hexVal (c : Char) : Nat :=
  if c.isDigit then c.toNat - 48
  else if 'a' ≤ c && c ≤ 'f' then c.toNat - 87
  else c.toNat - 55

/-- Value of a digit string in the given base. -/
def digitsToNat (base : Nat) (cs : List Char) : Nat :=
  cs.foldl (fun acc c => acc * base + hexVal c) 0

/-- JavaScript `parseInt(s)` (radix argument omitted): skip leading
whitespace, read an optional sign, auto-detect a `0x`/`0X` hexadecimal
prefix, take the longest digit prefix, and return `NaN` (here `none`)
when no digit is found. -/
def parseIntJS (s : String) : Option Int :=
  let cs := s.toList.dropWhile Char.isWhitespace
  let signed : Int × List Char :=
    match cs with
    | '-' :: rest => (-1, rest)
    | '+' :: rest => (1, rest)
    | _ => (1, cs)
  match signed.2 with
  | '0' :: x :: rest =>
    if x == 'x' || x == 'X' then
      let ds := rest.takeWhile isHexDigitJS
      if ds.isEmpty then none else some (signed.1 * digitsToNat 16 ds)
    else
      some (signed.1 * digitsToNat 10 (('0' :: x :: rest).takeWhile Char.isDigit))
  | cs' =>
    let ds := cs'.takeWhile Char.isDigit
    if ds.isEmpty then none else some (signed.1 * digitsToNat 10 ds)

/-- A stored game record (`newGame` object shape in the source):
`releaseYear` and `imageUrl` are nullable, `null` modelled as `none`. -/
structure Game where
  id : Int
  title : String
  platform : String
  releaseYear : Option Int
  imageUrl : Option String
deriving Repr, DecidableEq

/-- The in-memory "database": `let games = []; let currentId = 1;`. -/
structure Store where
  games : List Game
  currentId : Int
deriving Repr, DecidableEq

/-- The store at process start. -/
def initialStore : Store := { games := [], currentId := 1 }

/-- A JSON request body as destructured by the handlers:
`const \x7b title, platform, releaseYear, imageUrl \x7d = req.body;`
a field absent from the body is `none`. -/
structure RequestBody where
  title : Option String
  platform : Option String
  releaseYear : Option Int
  imageUrl : Option String
deriving Repr, DecidableEq

/-- The two error responses the handlers produce. -/
inductive ApiError where
  | validation (msg : String)
  | notFound (msg : String)
deriving Repr, DecidableEq

/-- HTTP status code attached to each error response
(`res.status(400)` / `res.status(404)`). -/
def statusOf : ApiError → Nat
  | .validation _ => 400
  | .notFound _ => 404

/-- The lookup predicate `(g) => g.id === parseInt(req.params.id)`;
`pid = none` is `NaN`, which is `===`-equal to nothing. -/
def matchesId (pid : Option Int) (g : Game) : Bool :=
  some g.id == pid

/-- The record literal built by the create handler: fresh id from the
counter, required fields taken as given, optional fields defaulted to
`null` by `releaseYear || null` / `imageUrl || null`. -/
def mkNewGame (b : RequestBody) (st : Store) : Game :=
  { id := st.currentId
    title := b.title.getD ""
    platform := b.platform.getD ""
    releaseYear := if truthyInt b.releaseYear then b.releaseYear else none
    imageUrl := if truthyStr b.imageUrl then b.imageUrl else none }

/-- `app.post("/games")`: reject when `!title || !platform`, otherwise
push a new record built from `currentId++` and answer 201 with it. -/
def postGames (b : RequestBody) (st : Store) : Except ApiError Game × Store :=
  if !truthyStr b.title || !truthyStr b.platform then
    (.error (.validation "Título e plataforma são obrigatórios"), st)
  else
    let g := mkNewGame b st
    (.ok g, { games := st.games ++ [g], currentId := st.currentId + 1 })

/-- `app.get("/games")`: answer with the whole list. -/
def getGames (st : Store) : List Game :=
  st.games

/-- `app.get("/games/:id")`: linear scan with `games.find`, 404 when the
scan comes back empty. -/
def getGameById (idParam : String) (st : Store) : Except ApiError Game :=
  match st.games.find? (matchesId (parseIntJS idParam)) with
  | none => .error (.notFound "Jogo não encontrado")
  | some g => .ok g

/-- The four conditional field assignments of the update handler:
`if (title) game.title = title;` and so on — a falsy supplied value
leaves the stored field untouched. -/
def applyUpdate (b : RequestBody) (g : Game) : Game :=
  { id := g.id
    title := if truthyStr b.title then b.title.getD "" else g.title
    platform := if truthyStr b.platform then b.platform.getD "" else g.platform
    releaseYear := if truthyInt b.releaseYear then b.releaseYear else g.releaseYear
    imageUrl := if truthyStr b.imageUrl then b.imageUrl else g.imageUrl }

/-- Replace the first element satisfying `p` (the in-place mutation of
the object returned by `games.find`). -/
def updateFirst {α : Type} (p : α → Bool) (a : α) : List α → List α
  | [] => []
  | x :: xs => if p x then a :: xs else x :: updateFirst p a xs

/-- `app.put("/games/:id")`: find the record, 404 when absent, otherwise
mutate its truthy-supplied fields in place and answer with it. -/
def putGame (idParam : String) (b : RequestBody) (st : Store) :
    Except ApiError Game × Store :=
  let pid := parseIntJS idParam
  match st.games.find? (matchesId pid) with
  | none => (.error (.notFound "Jogo não encontrado"), st)
  | some g =>
    (.ok (applyUpdate b g),
      { games := updateFirst (matchesId pid) (applyUpdate b g) st.games
        currentId := st.currentId })

/-- `app.delete("/games/:id")`: `findIndex`, 404 on `-1`, otherwise
`splice(index, 1)` and answer with the removed record. -/
def deleteGame (idParam : String) (st : Store) : Except ApiError Game × Store :=
  let pid := parseIntJS idParam
  match st.games.find? (matchesId pid) with
  | none => (.error (.notFound "Jogo não encontrado"), st)
  | some g =>
    (.ok g, { games := st.games.eraseP (matchesId pid), currentId := st.currentId })

/-- Where the listening port came from. -/
inductive PortConfig where
  | fromEnv (value : String)
  | defaultPort (n : Nat)
deriving Repr, DecidableEq

/-- `const PORT = process.env.PORT || 3000;` — an unset or empty
environment variable is falsy, so the fixed default 3000 applies. -/
def resolvePORT (envPORT : Option String) : PortConfig :=
  if truthyStr envPORT then .fromEnv (envPORT.getD "") else .defaultPort 3000

/-- A mutating request: `GET` handlers never change the store and are
left out. -/
inductive Op where
  | post (body : RequestBody)
  | put (idParam : String) (body : RequestBody)
  | delete (idParam : String)
deriving Repr, DecidableEq

/-- Apply a mutating request to the store, discarding the response. -/
def applyOp : Op → Store → Store
  | .post b, st => (postGames b st).2
  | .put p b, st => (putGame p b st).2
  | .delete p, st => (deleteGame p st).2

/-- A store together with the observation history needed by the lifetime
claims: the ids handed out by successful creates (in order) and the
number of successful deletes. -/
structure Trace where
  store : Store
  createdIds : List Int
  deleteCount : Nat
deriving Repr, DecidableEq

/-- The trace at process start. -/
def initialTrace : Trace :=
  { store := initialStore, createdIds := [], deleteCount := 0 }

/-- Apply a mutating request and record whether it succeeded. -/
def applyOpT : Op → Trace → Trace
  | .post b, tr =>
    match postGames b tr.store with
    | (.ok g, st') =>
      { store := st', createdIds := tr.createdIds ++ [g.id],
        deleteCount := tr.deleteCount }
    | (.error _, st') =>
      { store := st', createdIds := tr.createdIds, deleteCount := tr.deleteCount }
  | .put p b, tr =>
    { store := (putGame p b tr.store).2, createdIds := tr.createdIds,
      deleteCount := tr.deleteCount }
  | .delete p, tr =>
    match deleteGame p tr.store with
    | (.ok _, st') =>
      { store := st', createdIds := tr.createdIds,
        deleteCount := tr.deleteCount + 1 }
    | (.error _, st') =>
      { store := st', createdIds := tr.createdIds, deleteCount := tr.deleteCount }

/-- Replay a sequence of mutating requests from the empty store. -/
def runOps (ops : List Op) : Trace :=
  ops.foldl (fun tr op => applyOpT op tr) initialTrace

/-- Data-model invariant: every stored record has a non-empty title and
platform. -/
def GoodStore (st : Store) : Prop :=
  ∀ g ∈ st.games, g.title ≠ "" ∧ g.platform ≠ ""

/-- Lifetime invariant carried through every replay: assigned ids are
pairwise distinct and below the counter, stored records carry assigned
ids and pairwise distinct ids, the store size balances creates against
deletes, and required fields are non-empty. -/
def TraceInv (tr : Trace) : Prop :=
  tr.createdIds.Nodup ∧
  (∀ i ∈ tr.createdIds, i < tr.store.currentId) ∧
  (∀ g ∈ tr.store.games, g.id ∈ tr.createdIds) ∧
  (tr.store.games.map Game.id).Nodup ∧
  tr.store.games.length + tr.deleteCount = tr.createdIds.length ∧
  GoodStore tr.store ∧
  1 ≤ tr.store.currentId

/-- Concrete record used to exercise the theorems. -/
def sampleGame : Game :=
  { id := 1, title := "Halo", platform := "Xbox", releaseYear := none,
    imageUrl := none }

/-- Concrete store holding `sampleGame`, counter already advanced. -/
def sampleStore : Store := { games := [sampleGame], currentId := 2 }

/-- Concrete partial update body: truthy title, falsy (zero) release
year, absent platform and image. -/
def sampleBody : RequestBody :=
  { title := some "Halo Infinite", platform := none, releaseYear := some 0,
    imageUrl := none }

/-- Concrete create body with both required fields present. -/
def sampleCreateBody : RequestBody :=
  { title := some "Mario", platform := some "Switch", releaseYear := some 2017,
    imageUrl := none }

/-- Concrete create body whose platform is empty, hence falsy. -/
def sampleInvalidBody : RequestBody :=
  { title := some "Halo", platform := some "", releaseYear := none,
    imageUrl := none }

/-- A truthy optional string destructures to a non-empty string. -/
theorem truthyStr_getD {o : Option String} (h : truthyStr o = true) :
    o.getD "" ≠ "" := by
  cases o with
  | none => simp [truthyStr] at h
  | some s =>
    rw [Option.getD_some]
    intro hs
    subst hs
    exact absurd h (by decide)

/-- The lookup predicate succeeds exactly when the parsed id equals the
record's id. -/
theorem matchesId_iff (pid : Option Int) (g : Game) :
    matchesId pid g = true ↔ pid = some g.id := by
  simp only [matchesId, beq_iff_eq]
  exact eq_comm

/-- Replacing one element keeps the length. -/
theorem length_updateFirst {α : Type} (p : α → Bool) (a : α) :
    ∀ l : List α, (updateFirst p a l).length = l.length := by
  intro l
  induction l with
  | nil => rfl
  | cons x xs ih =>
    by_cases hx : p x = true
    · simp [updateFirst, hx]
    · simp [updateFirst, hx, ih]

/-- An element of the list after an in-place replacement is either the
replacement or an original element. -/
theorem mem_updateFirst {α : Type} (p : α → Bool) (a x : α) :
    ∀ l : List α, x ∈ updateFirst p a l → x = a ∨ x ∈ l := by
  intro l
  induction l with
  | nil => intro h; simp [updateFirst] at h
  | cons y ys ih =>
    intro h
    by_cases hy : p y = true
    · rw [updateFirst, if_pos hy] at h
      rcases List.mem_cons.1 h with h | h
      · exact Or.inl h
      · exact Or.inr (List.mem_cons_of_mem _ h)
    · rw [updateFirst, if_neg hy] at h
      rcases List.mem_cons.1 h with h | h
      · exact Or.inr (h ▸ List.mem_cons_self _ _)
      · rcases ih h with h | h
        · exact Or.inl h
        · exact Or.inr (List.mem_cons_of_mem _ h)

/-- Replacing the first match with an element of equal image leaves the
image of the list unchanged. -/
theorem map_updateFirst {α β : Type} (f : α → β) (p : α → Bool) (a g : α)
    (hfa : f a = f g) :
    ∀ l : List α, l.find? p = some g → (updateFirst p a l).map f = l.map f := by
  intro l
  induction l with
  | nil => intro h; simp at h
  | cons x xs ih =>
    intro h
    by_cases hx : p x = true
    · rw [List.find?_cons_of_pos _ hx] at h
      injection h with h
      subst h
      simp [updateFirst, hx, hfa]
    · rw [List.find?_cons_of_neg _ hx] at h
      simp [updateFirst, hx, ih h]

/-- After erasing the found record, no record with the same id remains,
provided stored ids are pairwise distinct. -/
theorem find?_eraseP_matchesId (pid : Option Int) :
    ∀ l : List Game, (l.map Game.id).Nodup →
      ∀ g, l.find? (matchesId pid) = some g →
        (l.eraseP (matchesId pid)).find? (matchesId pid) = none := by
  intro l
  induction l with
  | nil => intro _ g hg; simp at hg
  | cons x xs ih =>
    intro hnd g hg
    rw [List.map_cons, List.nodup_cons] at hnd
    obtain ⟨hx_not, hnd'⟩ := hnd
    by_cases hx : matchesId pid x = true
    · rw [List.eraseP_cons_of_pos hx]
      rw [List.find?_eq_none]
      intro y hy hymatch
      have h1 : pid = some x.id := (matchesId_iff _ _).1 hx
      have h2 : pid = some y.id := (matchesId_iff _ _).1 hymatch
      rw [h1] at h2
      injection h2 with h2
      exact hx_not (h2 ▸ List.mem_map_of_mem Game.id hy)
    · rw [List.eraseP_cons_of_neg hx]
      rw [List.find?_cons_of_neg _ hx] at hg
      rw [List.find?_cons_of_neg _ hx]
      exact ih hnd' g hg

/-- Successful create: both required fields truthy, new record appended,
counter bumped. -/
theorem postGames_ok {b : RequestBody} {st : Store}
    (ht : truthyStr b.title = true) (hp : truthyStr b.platform = true) :
    postGames b st = (.ok (mkNewGame b st),
      { games := st.games ++ [mkNewGame b st], currentId := st.currentId + 1 }) := by
  simp [postGames, ht, hp]

/-- Failed create: a falsy required field short-circuits into the 400
branch, store untouched. -/
theorem postGames_err {b : RequestBody} {st : Store}
    (h : truthyStr b.title = false ∨ truthyStr b.platform = false) :
    postGames b st =
      (.error (.validation "Título e plataforma são obrigatórios"), st) := by
  rcases h with h | h <;> simp [postGames, h]

/-- Inversion of a successful create. -/
theorem postGames_ok_inv {b : RequestBody} {st st' : Store} {g : Game}
    (hc : postGames b st = (.ok g, st')) :
    truthyStr b.title = true ∧ truthyStr b.platform = true ∧
    g = mkNewGame b st ∧
    st' = { games := st.games ++ [mkNewGame b st], currentId := st.currentId + 1 } := by
  by_cases ht : truthyStr b.title = true
  · by_cases hp : truthyStr b.platform = true
    · rw [postGames_ok ht hp] at hc
      injection hc with hc1 hc2
      injection hc1 with hc1
      exact ⟨ht, hp, hc1.symm, hc2.symm⟩
    · simp only [Bool.not_eq_true] at hp
      rw [postGames_err (Or.inr hp)] at hc
      simp at hc
  · simp only [Bool.not_eq_true] at ht
    rw [postGames_err (Or.inl ht)] at hc
    simp at hc

/-- Create preserves non-emptiness of the required fields. -/
theorem goodStore_postGames (b : RequestBody) (st : Store) (h : GoodStore st) :
    GoodStore (postGames b st).2 := by
  by_cases ht : truthyStr b.title = true
  · by_cases hp : truthyStr b.platform = true
    · rw [postGames_ok ht hp]
      intro g hg
      rcases List.mem_append.1 hg with hg | hg
      · exact h g hg
      · rw [List.mem_singleton] at hg
        subst hg
        exact ⟨truthyStr_getD ht, truthyStr_getD hp⟩
    · simp only [Bool.not_eq_true] at hp
      rw [postGames_err (Or.inr hp)]
      exact h
  · simp only [Bool.not_eq_true] at ht
    rw [postGames_err (Or.inl ht)]
    exact h

/-- The conditional assignments of the update handler never write an
empty string into a required field. -/
theorem applyUpdate_good {b : RequestBody} {g : Game}
    (hgt : g.title ≠ "") (hgp : g.platform ≠ "") :
    (applyUpdate b g).title ≠ "" ∧ (applyUpdate b g).platform ≠ "" := by
  constructor
  · by_cases hb : truthyStr b.title = true
    · simpa [applyUpdate, hb] using truthyStr_getD hb
    · simpa [applyUpdate, hb] using hgt
  · by_cases hb : truthyStr b.platform = true
    · simpa [applyUpdate, hb] using truthyStr_getD hb
    · simpa [applyUpdate, hb] using hgp

/-- Update preserves non-emptiness of the required fields. -/
theorem goodStore_putGame (p : String) (b : RequestBody) (st : Store)
    (h : GoodStore st) : GoodStore (putGame p b st).2 := by
  rcases hf : st.games.find? (matchesId (parseIntJS p)) with _ | g
  · simp only [putGame, hf]
    exact h
  · simp only [putGame, hf]
    intro x hx
    rcases mem_updateFirst _ _ _ _ hx with rfl | hx
    · obtain ⟨hgt, hgp⟩ := h g (List.mem_of_find?_eq_some hf)
      exact applyUpdate_good hgt hgp
    · exact h x hx

/-- Delete preserves non-emptiness of the required fields. -/
theorem goodStore_deleteGame (p : String) (st : Store) (h : GoodStore st) :
    GoodStore (deleteGame p st).2 := by
  rcases hf : st.games.find? (matchesId (parseIntJS p)) with _ | g
  · simp only [deleteGame, hf]
    exact h
  · simp only [deleteGame, hf]
    intro x hx
    exact h x ((List.eraseP_sublist _).subset hx)


/-- A successful create preserves the lifetime invariant: the fresh id
equals the counter, which every previously assigned id is below. -/
theorem traceInv_post (b : RequestBody) (tr : Trace) (h : TraceInv tr) :
    TraceInv (applyOpT (.post b) tr) := by
  obtain ⟨h1, h2, h3, h4, h5, h6, h7⟩ := h
  by_cases ht : truthyStr b.title = true
  · by_cases hp : truthyStr b.platform = true
    · have hgood := goodStore_postGames b tr.store h6
      rw [postGames_ok ht hp] at hgood
      simp only [applyOpT, postGames_ok ht hp, TraceInv]
      refine ⟨?_, ?_, ?_, ?_, ?_, hgood, ?_⟩
      · refine List.Nodup.append h1 (List.nodup_singleton _) ?_
        intro i hi hi'
        rw [List.mem_singleton] at hi'
        subst hi'
        exact absurd (h2 _ hi) (lt_irrefl _)
      · intro i hi
        rcases List.mem_append.1 hi with hi | hi
        · have := h2 _ hi
          omega
        · rw [List.mem_singleton] at hi
          subst hi
          simp only [mkNewGame]
          omega
      · intro g hg
        rcases List.mem_append.1 hg with hg | hg
        · exact List.mem_append.2 (Or.inl (h3 _ hg))
        · rw [List.mem_singleton] at hg
          subst hg
          exact List.mem_append.2 (Or.inr (List.mem_singleton.2 rfl))
      · rw [List.map_append]
        refine List.Nodup.append h4 (List.nodup_singleton _) ?_
        intro a ha ha'
        simp only [List.map_cons, List.map_nil, List.mem_singleton] at ha'
        rcases List.mem_map.1 ha with ⟨g, hg, rfl⟩
        have hlt := h2 _ (h3 _ hg)
        have hid : g.id = tr.store.currentId := ha'
        omega
      · simp only [List.length_append, List.length_cons, List.length_nil]
        omega
      · omega
    · simp only [Bool.not_eq_true] at hp
      simp only [applyOpT, postGames_err (Or.inr hp), TraceInv]
      exact ⟨h1, h2, h3, h4, h5, h6, h7⟩
  · simp only [Bool.not_eq_true] at ht
    simp only [applyOpT, postGames_err (Or.inl ht), TraceInv]
    exact ⟨h1, h2, h3, h4, h5, h6, h7⟩

/-- An update preserves the lifetime invariant: the mutated record keeps
its id, so the stored id sequence is untouched. -/
theorem traceInv_put (p : String) (b : RequestBody) (tr : Trace)
    (h : TraceInv tr) : TraceInv (applyOpT (.put p b) tr) := by
  obtain ⟨h1, h2, h3, h4, h5, h6, h7⟩ := h
  have hgood := goodStore_putGame p b tr.store h6
  rcases hf : tr.store.games.find? (matchesId (parseIntJS p)) with _ | g
  · simp only [putGame, hf] at hgood
    simp only [applyOpT, putGame, hf, TraceInv]
    exact ⟨h1, h2, h3, h4, h5, hgood, h7⟩
  · simp only [putGame, hf] at hgood
    simp only [applyOpT, putGame, hf, TraceInv]
    have hg_mem : g ∈ tr.store.games := List.mem_of_find?_eq_some hf
    have hmap := map_updateFirst Game.id (matchesId (parseIntJS p))
      (applyUpdate b g) g rfl tr.store.games hf
    refine ⟨h1, h2, ?_, ?_, ?_, hgood, h7⟩
    · intro x hx
      rcases mem_updateFirst _ _ _ _ hx with rfl | hx
      · exact h3 g hg_mem
      · exact h3 _ hx
    · rw [hmap]
      exact h4
    · rw [length_updateFirst]
      exact h5

/-- A delete preserves the lifetime invariant: one record leaves the
store and the delete counter advances by one; assigned ids are kept. -/
theorem traceInv_delete (p : String) (tr : Trace) (h : TraceInv tr) :
    TraceInv (applyOpT (.delete p) tr) := by
  obtain ⟨h1, h2, h3, h4, h5, h6, h7⟩ := h
  have hgood := goodStore_deleteGame p tr.store h6
  rcases hf : tr.store.games.find? (matchesId (parseIntJS p)) with _ | g
  · simp only [deleteGame, hf] at hgood
    simp only [applyOpT, deleteGame, hf, TraceInv]
    exact ⟨h1, h2, h3, h4, h5, hgood, h7⟩
  · simp only [deleteGame, hf] at hgood
    simp only [applyOpT, deleteGame, hf, TraceInv]
    have hg_mem : g ∈ tr.store.games := List.mem_of_find?_eq_some hf
    have hpg : matchesId (parseIntJS p) g = true := List.find?_some hf
    have hsub : List.Sublist
        (tr.store.games.eraseP (matchesId (parseIntJS p))) tr.store.games :=
      List.eraseP_sublist _
    refine ⟨h1, h2, ?_, ?_, ?_, hgood, h7⟩
    · intro x hx
      exact h3 _ (hsub.subset hx)
    · exact List.Nodup.sublist (hsub.map Game.id) h4
    · rw [List.length_eraseP_of_mem hg_mem hpg]
      have := List.length_pos_of_mem hg_mem
      omega

/-- Every mutating request preserves the lifetime invariant. -/
theorem traceInv_applyOpT (op : Op) (tr : Trace) (h : TraceInv tr) :
    TraceInv (applyOpT op tr) := by
  cases op with
  | post b => exact traceInv_post b tr h
  | put p b => exact traceInv_put p b tr h
  | delete p => exact traceInv_delete p tr h

/-- The empty store with counter 1 satisfies the lifetime invariant. -/
theorem traceInv_initial : TraceInv initialTrace := by
  refine ⟨?_, ?_, ?_, ?_, ?_, ?_, ?_⟩ <;>
    simp [initialTrace, initialStore, GoodStore]

/-- Every state reachable from process start satisfies the lifetime
invariant. -/
theorem traceInv_runOps (ops : List Op) : TraceInv (runOps ops) := by
  suffices h : ∀ tr, TraceInv tr →
      TraceInv (ops.foldl (fun tr op => applyOpT op tr) tr) from
    h initialTrace traceInv_initial
  induction ops with
  | nil => intro tr h; exact h
  | cons op ops ih =>
    intro tr h
    exact ih _ (traceInv_applyOpT op tr h)

/-- Claim C1: along every sequence of store operations from the empty
store with the counter at 1, the ids assigned by Create are pairwise
distinct over the store's lifetime and never reused (every stored record
carries one of the assigned ids), and Delete keeps the remaining records
intact and in order (the surviving list is a sublist of the original). -/
theorem c1_ids_unique_never_reused (ops : List Op) :
    (runOps ops).createdIds.Nodup ∧
    (∀ g ∈ (runOps ops).store.games, g.id ∈ (runOps ops).createdIds) ∧
    (∀ (p : String) (st : Store),
      List.Sublist ((deleteGame p st).2.games) st.games) := by
  obtain ⟨h1, _, h3, _, _, _, _⟩ := traceInv_runOps ops
  refine ⟨h1, h3, ?_⟩
  intro p st
  rcases hf : st.games.find? (matchesId (parseIntJS p)) with _ | g
  · simp only [deleteGame, hf]
    exact List.Sublist.refl _
  · simp only [deleteGame, hf]
    exact List.eraseP_sublist _

/-- Claim C3: a create whose title and platform are present and
non-empty always succeeds, assigns `id = nextId`, increments the
counter, appends the new record at the end, and returns it. -/
theorem c3_create_succeeds (b : RequestBody) (st : Store)
    (ht : truthyStr b.title = true) (hp : truthyStr b.platform = true) :
    postGames b st = (.ok (mkNewGame b st),
      { games := st.games ++ [mkNewGame b st], currentId := st.currentId + 1 }) ∧
    (mkNewGame b st).id = st.currentId :=
  ⟨postGames_ok ht hp, rfl⟩

/-- Witness for C3 at a concrete body and store. -/
theorem c3_create_succeeds_witness :
    postGames sampleCreateBody sampleStore =
      (.ok (mkNewGame sampleCreateBody sampleStore),
        { games := sampleStore.games ++ [mkNewGame sampleCreateBody sampleStore],
          currentId := sampleStore.currentId + 1 }) ∧
    (mkNewGame sampleCreateBody sampleStore).id = sampleStore.currentId :=
  c3_create_succeeds sampleCreateBody sampleStore rfl rfl

/-- Claim C4: a create missing title or platform (or supplying an empty
one) fails with the 400 validation error and leaves the store, hence the
listing length and the counter, unchanged. -/
theorem c4_create_missing_field (b : RequestBody) (st : Store)
    (h : truthyStr b.title = false ∨ truthyStr b.platform = false) :
    postGames b st =
      (.error (.validation "Título e plataforma são obrigatórios"), st) ∧
    statusOf (.validation "Título e plataforma são obrigatórios") = 400 ∧
    (getGames (postGames b st).2).length = (getGames st).length := by
  refine ⟨postGames_err h, rfl, ?_⟩
  rw [postGames_err h]

/-- Witness for C4 at a concrete body whose platform is empty. -/
theorem c4_create_missing_field_witness :
    postGames sampleInvalidBody sampleStore =
      (.error (.validation "Título e plataforma são obrigatórios"),
        sampleStore) :=
  (c4_create_missing_field sampleInvalidBody sampleStore (Or.inr rfl)).1

/-- Claim C6: every mutating operation preserves the invariant that
title and platform are non-empty for every stored record. -/
theorem c6_required_fields_invariant (op : Op) (st : Store)
    (h : GoodStore st) : GoodStore (applyOp op st) := by
  cases op with
  | post b => exact goodStore_postGames b st h
  | put p b => exact goodStore_putGame p b st h
  | delete p => exact goodStore_deleteGame p st h

/-- Witness for C6 at a concrete update on a concrete store. -/
theorem c6_required_fields_invariant_witness :
    GoodStore (applyOp (Op.put "1" sampleBody) sampleStore) :=
  c6_required_fields_invariant (Op.put "1" sampleBody) sampleStore
    (by unfold GoodStore; decide)

/-- Claim C8: listing never fails and returns the whole backing list,
and after any operation sequence from the empty store its length is the
number of successful creates minus the number of successful deletes. -/
theorem c8_list_length_balance (ops : List Op) :
    getGames (runOps ops).store = (runOps ops).store.games ∧
    (runOps ops).store.games.length + (runOps ops).deleteCount =
      (runOps ops).createdIds.length ∧
    (runOps ops).store.games.length =
      (runOps ops).createdIds.length - (runOps ops).deleteCount := by
  obtain ⟨_, _, _, _, h5, _, _⟩ := traceInv_runOps ops
  exact ⟨rfl, h5, by omega⟩

/-- Claim C9: the listening port is a single configuration value taken
from the environment override when present (and truthy), falling back to
the fixed default 3000 when absent. -/
theorem c9_port_override :
    resolvePORT none = .defaultPort 3000 ∧
    resolvePORT (some "") = .defaultPort 3000 ∧
    (∀ s : String, s ≠ "" → resolvePORT (some s) = .fromEnv s) := by
  refine ⟨by decide, by decide, ?_⟩
  intro s hs
  have hemp : s.isEmpty = false := by
    cases h' : s.isEmpty with
    | false => rfl
    | true => exact absurd ((String.isEmpty_iff s).1 h') hs
  simp [resolvePORT, truthyStr, hemp]

/-- Witness for C9 at a concrete environment value. -/
theorem c9_port_override_witness :
    resolvePORT (some "8080") = .fromEnv "8080" :=
  c9_port_override.2.2 "8080" (by decide)

/-- Claim C2: when the store holds a record matching the id parameter,
Update returns the record with exactly the truthy-supplied fields of the
partial input overwritten — a field omitted or falsy (empty string,
zero) is left unchanged, so a caller cannot clear a field — replaces the
matched record in place, and keeps the counter. -/
theorem c2_update_truthy_fields (idParam : String) (b : RequestBody)
    (st : Store) (g : Game)
    (h : st.games.find? (matchesId (parseIntJS idParam)) = some g) :
    (putGame idParam b st).1 = .ok (applyUpdate b g) ∧
    (putGame idParam b st).2 =
      { games := updateFirst (matchesId (parseIntJS idParam))
          (applyUpdate b g) st.games
        currentId := st.currentId } ∧
    (applyUpdate b g).id = g.id ∧
    (applyUpdate b g).title =
      (if truthyStr b.title then b.title.getD "" else g.title) ∧
    (applyUpdate b g).platform =
      (if truthyStr b.platform then b.platform.getD "" else g.platform) ∧
    (applyUpdate b g).releaseYear =
      (if truthyInt b.releaseYear then b.releaseYear else g.releaseYear) ∧
    (applyUpdate b g).imageUrl =
      (if truthyStr b.imageUrl then b.imageUrl else g.imageUrl) := by
  refine ⟨?_, ?_, rfl, rfl, rfl, rfl, rfl⟩ <;> simp only [putGame, h]

/-- Witness for C2: a truthy title overwrites, a zero release year is
ignored. -/
theorem c2_update_truthy_fields_witness :
    (putGame "1" sampleBody sampleStore).1 =
      .ok (applyUpdate sampleBody sampleGame) ∧
    (applyUpdate sampleBody sampleGame).releaseYear = sampleGame.releaseYear := by
  have h := c2_update_truthy_fields "1" sampleBody sampleStore sampleGame rfl
  exact ⟨h.1, by rw [h.2.2.2.2.2.1]; decide⟩

/-- Claim C5: Delete answers 404 when no record matches the id and the
store stays untouched; otherwise it returns the matched record and
removes exactly it; with pairwise-distinct stored ids (which every
reachable store has, last conjunct) a successful Delete followed by
GetById on the same parameter answers 404. -/
theorem c5_delete_then_get (p : String) (st : Store) :
    ((∀ g ∈ st.games, parseIntJS p ≠ some g.id) →
      deleteGame p st = (.error (.notFound "Jogo não encontrado"), st)) ∧
    (∀ g, st.games.find? (matchesId (parseIntJS p)) = some g →
      (deleteGame p st).1 = .ok g ∧
      (deleteGame p st).2.games = st.games.eraseP (matchesId (parseIntJS p)) ∧
      ((st.games.map Game.id).Nodup →
        getGameById p (deleteGame p st).2 =
          .error (.notFound "Jogo não encontrado"))) ∧
    (∀ ops : List Op, ((runOps ops).store.games.map Game.id).Nodup) := by
  refine ⟨?_, ?_, fun ops => (traceInv_runOps ops).2.2.2.1⟩
  · intro h
    have hf : st.games.find? (matchesId (parseIntJS p)) = none := by
      rw [List.find?_eq_none]
      intro g hg hm
      exact h g hg ((matchesId_iff _ _).1 hm)
    simp only [deleteGame, hf]
  · intro g hf
    refine ⟨by simp only [deleteGame, hf], by simp only [deleteGame, hf], ?_⟩
    intro hnd
    have hnone := find?_eraseP_matchesId (parseIntJS p) st.games hnd g hf
    simp only [deleteGame, hf, getGameById, hnone]

/-- Witness for C5: deleting the only record and reading it back. -/
theorem c5_delete_then_get_witness :
    (deleteGame "1" sampleStore).1 = .ok sampleGame ∧
    getGameById "1" (deleteGame "1" sampleStore).2 =
      .error (.notFound "Jogo não encontrado") := by
  have h := (c5_delete_then_get "1" sampleStore).2.1 sampleGame rfl
  exact ⟨h.1, h.2.2 (by decide)⟩

/-- Claim C7: immediately after a successful create (in a store whose
records all have ids below the counter, as every reachable store does),
GetById with the new record's id returns exactly the record Create
returned; in general GetById answers the found record or 404 when the
scan finds nothing. -/
theorem c7_getbyid_after_create (b : RequestBody) (st st' : Store)
    (g : Game) (p : String)
    (hinv : ∀ x ∈ st.games, x.id < st.currentId)
    (hc : postGames b st = (.ok g, st'))
    (hp : parseIntJS p = some g.id) :
    getGameById p st' = .ok g ∧
    (∀ (q : String) (st0 : Store),
      (getGameById q st0 = .error (.notFound "Jogo não encontrado") ↔
        st0.games.find? (matchesId (parseIntJS q)) = none) ∧
      (∀ x, st0.games.find? (matchesId (parseIntJS q)) = some x →
        getGameById q st0 = .ok x)) := by
  obtain ⟨ht, hpf, hg, hst⟩ := postGames_ok_inv hc
  subst hg
  subst hst
  constructor
  · have hnone : st.games.find? (matchesId (parseIntJS p)) = none := by
      rw [List.find?_eq_none]
      intro x hx hmx
      have h1 : parseIntJS p = some x.id := (matchesId_iff _ _).1 hmx
      rw [hp] at h1
      injection h1 with h1
      have h2 := hinv x hx
      have h3 : (mkNewGame b st).id = st.currentId := rfl
      omega
    simp only [getGameById, List.find?_append, hnone, Option.none_or]
    rw [List.find?_cons_of_pos _ (by simp [matchesId, hp])]
  · intro q st0
    constructor
    · rcases hf : st0.games.find? (matchesId (parseIntJS q)) with _ | x
      · simp [getGameById, hf]
      · simp [getGameById, hf]
    · intro x hx
      simp [getGameById, hx]

/-- Witness for C7: create into the sample store, then read the new id
back. -/
theorem c7_getbyid_after_create_witness :
    getGameById "2"
      { games := sampleStore.games ++ [mkNewGame sampleCreateBody sampleStore],
        currentId := sampleStore.currentId + 1 } =
      .ok (mkNewGame sampleCreateBody sampleStore) :=
  (c7_getbyid_after_create sampleCreateBody sampleStore _ _ "2"
    (by decide) (postGames_ok rfl rfl) (by decide)).1

/-- Claim C10: an id parameter matching no stored record — in
particular a non-numeric string, which parses to NaN — makes GetById,
Update and Delete all answer exactly the 404 not-found error with the
store unchanged. -/
theorem c10_malformed_id_notfound (p : String) (b : RequestBody)
    (st : Store) (h : ∀ g ∈ st.games, parseIntJS p ≠ some g.id) :
    getGameById p st = .error (.notFound "Jogo não encontrado") ∧
    putGame p b st = (.error (.notFound "Jogo não encontrado"), st) ∧
    deleteGame p st = (.error (.notFound "Jogo não encontrado"), st) ∧
    statusOf (.notFound "Jogo não encontrado") = 404 := by
  have hf : st.games.find? (matchesId (parseIntJS p)) = none := by
    rw [List.find?_eq_none]
    intro g hg hm
    exact h g hg ((matchesId_iff _ _).1 hm)
  exact ⟨by simp only [getGameById, hf], by simp only [putGame, hf],
    by simp only [deleteGame, hf], rfl⟩

/-- Witness for C10 at a non-numeric id parameter. -/
theorem c10_malformed_id_notfound_witness :
    getGameById "abc" sampleStore =
      .error (.notFound "Jogo não encontrado") ∧
    deleteGame "abc" sampleStore =
      (.error (.notFound "Jogo não encontrado"), sampleStore) := by
  have h := c10_malformed_id_notfound "abc" sampleBody sampleStore (by decide)
  exact ⟨h.1, h.2.2.1⟩
